import Mathlib

/-!
Verification of the documentation-build configuration script (`conf.py`).

The script performs two effective operations at load time:
1. a dependency stub installer that registers permissive placeholder
   modules in the interpreter's module registry (`sys.modules`) before
   importing the documented package (`exoplanet`);
2. a tutorial converter that scans for notebook files and invokes
   `jupyter nbconvert` once per file via the shell, fail-fast.

The embedding models the module registry as a partial map from names to
Python objects, the loop as a function from the glob result and an
exit-code oracle to a trace of observable events (prints and external
calls), and the whole script as `runConf`.
-/

namespace Conf

/-- A Python object relevant to the script: an instance of the local
`Mock` class (a `MagicMock` subclass whose class-level attribute lookup
returns a fresh `MagicMock()`), a `MagicMock` instance, or any other
module object already present in the registry. -/
inductive PyObj where
  | mock
  | magicMock
  | other (name : String)
deriving DecidableEq

/-- Attribute access, `getattr(obj, a)`.  `none` models an
`AttributeError`.  On a `Mock` instance the class-level
`__getattr__` returns `MagicMock()`; on a `MagicMock` instance attribute
access returns a child mock.  Attribute access on other (real) module
objects is not used by the script and is left unspecified as failing. -/
def pyGetattr : PyObj → String → Option PyObj
  | PyObj.mock, _ => some PyObj.magicMock
  | PyObj.magicMock, _ => some PyObj.magicMock
  | PyObj.other _, _ => none

/-- The module registry `sys.modules`: a partial map from module names
to module objects. -/
abbrev Modules : Type := String → Option PyObj

/-- The fixed stub list `MOCK_MODULES` from the script. -/
def MOCK_MODULES : List String := [
  "numpy",
  "astropy",
  "astropy.units",
  "astropy.constants",
  "pymc3",
  "pymc3.step_methods.hmc",
  "pymc3.distributions",
  "pymc3.distributions.transforms",
  "theano",
  "theano.ifelse",
  "theano.tensor"]

/-- Insert one key/value pair into a registry (a single dict entry
assignment). -/
def update1 (m : Modules) (kv : String × PyObj) : Modules :=
  fun k => if k = kv.1 then some kv.2 else m k

/-- `dict.update` over a sequence of key/value pairs, later pairs
overriding earlier ones. -/
def dictUpdate (m : Modules) (kvs : List (String × PyObj)) : Modules :=
  kvs.foldl update1 m

/-- `sys.modules.update((mod_name, Mock()) for mod_name in MOCK_MODULES)`:
each name in the stub list is bound to a fresh `Mock()` instance. -/
def installStubs (m : Modules) : Modules :=
  dictUpdate m (MOCK_MODULES.map fun n => (n, PyObj.mock))

/-- One-based index of the last occurrence of `c` in `l`
(`0` when absent); this is Python's `str.rfind` shifted by one so that
`Nat` suffices. -/
def rfind1 : List Char → Char → Nat
  | [], _ => 0
  | x :: xs, c =>
    let r := rfind1 xs c
    if r = 0 then (if x = c then 1 else 0) else r + 1

/-- Remove trailing slashes, `head.rstrip('/')`. -/
def rstripSlash (l : List Char) : List Char :=
  (l.reverse.dropWhile (fun c => c == '/')).reverse

/-- `os.path.split` (POSIX): split at the last slash; the head keeps no
trailing slashes unless it consists only of slashes. -/
def splitPath (l : List Char) : List Char × List Char :=
  let i := rfind1 l '/'
  let head := l.take i
  let tail := l.drop i
  (if head ≠ [] ∧ ¬ (head.all fun c => c == '/') then rstripSlash head else head, tail)

/-- `os.path.splitext` (POSIX): split off the extension beginning at the
last dot of the basename, unless the basename up to that dot is all
dots (leading dots of a hidden file are not an extension). -/
def splitext (l : List Char) : List Char × List Char :=
  let sep := rfind1 l '/'
  let dot := rfind1 l '.'
  if sep < dot then
    if ((l.drop sep).take (dot - 1 - sep)).all (fun c => c == '.') then
      (l, [])
    else
      (l.take (dot - 1), l.drop (dot - 1))
  else (l, [])

/-- `os.path.splitext(os.path.split(fn)[1])[0]`, on character lists. -/
def nameOf (l : List Char) : List Char :=
  (splitext (splitPath l).2).1

/-- The derived display name of a notebook file:
`name = os.path.splitext(os.path.split(fn)[1])[0]`. -/
def deriveName (fn : String) : String :=
  String.mk (nameOf fn.toList)

/-- `"Building {0}...".format(name)`. -/
def buildingMsg (name : String) : String :=
  "Building " ++ name ++ "..."

/-- The command string handed to the shell for one file: a plain
concatenation with `fn` inserted unquoted. -/
def nbconvertCmd (fn : String) : String :=
  "jupyter nbconvert --template tutorials/tutorial_rst --to rst " ++ fn
    ++ " --output-dir tutorials"

/-- The glob pattern the loop iterates over. -/
def globPattern : String := "_static/notebooks/*.ipynb"

/-- Modelled from the spec: `jupyter nbconvert` itself is external to
this repository; the spec states it produces one markup file per input
notebook, named after the notebook, in the `--output-dir` directory with
the `--to rst` extension. -/
def outputPathFor (fn : String) : String :=
  "tutorials/" ++ deriveName fn ++ ".rst"

/-- An observable event of the conversion loop: a printed progress line
or an external converter invocation (the command string passed to the
shell). -/
inductive Event where
  | print (s : String)
  | call (cmd : String)
deriving DecidableEq

/-- The events the loop body emits for one file: the progress message,
then the converter invocation. -/
def perFileEvents (fn : String) : List Event :=
  [Event.print (buildingMsg (deriveName fn)), Event.call (nbconvertCmd fn)]

/-- Outcome of loading the configuration script. -/
inductive Outcome where
  | ok
  | importError
  | calledProcessError (cmd : String) (code : Nat)
deriving DecidableEq

/-- The tutorial-conversion loop over the glob result, given an
exit-code oracle for external commands.  Returns the event trace and,
when `subprocess.check_call` saw a non-zero exit, the offending command
and its code; the loop stops at the first failure. -/
def convertLoop (exit : String → Nat) : List String → List Event × Option (String × Nat)
  | [] => ([], none)
  | fn :: rest =>
    if exit (nbconvertCmd fn) = 0 then
      let res := convertLoop exit rest
      (perFileEvents fn ++ res.1, res.2)
    else
      (perFileEvents fn, some (nbconvertCmd fn, exit (nbconvertCmd fn)))

/-- The environment for `import exoplanet`: whether the import succeeds
given the current module registry, and the package's `__version__`
attribute when it does. -/
structure ImportEnv where
  ok : Modules → Bool
  version : String

/-- Result of loading the configuration script: the final module
registry, the event trace, the outcome, and the values of the `version`
and `release` configuration variables when they were reached. -/
structure ConfResult where
  modules : Modules
  events : List Event
  outcome : Outcome
  version : Option String
  release : Option String

/-- The effective part of the configuration script, in source order:
install the stubs, `import exoplanet`, run the conversion loop over
`glob.glob(globPattern)`, then set `version` and `release` to
`exoplanet.__version__`.  Any failure aborts the load at that point. -/
def runConf (m0 : Modules) (env : ImportEnv) (glob : String → List String)
    (exit : String → Nat) : ConfResult :=
  if env.ok (installStubs m0) then
    match convertLoop exit (glob globPattern) with
    | (tr, none) =>
      { modules := installStubs m0, events := tr, outcome := Outcome.ok,
        version := some env.version, release := some env.version }
    | (tr, some pr) =>
      { modules := installStubs m0, events := tr,
        outcome := Outcome.calledProcessError pr.1 pr.2,
        version := none, release := none }
  else
    { modules := installStubs m0, events := [], outcome := Outcome.importError,
      version := none, release := none }

/-- The commands of the external-call events of a trace, in order. -/
def callEvents (tr : List Event) : List String :=
  tr.filterMap fun e =>
    match e with
    | Event.call c => some c
    | Event.print _ => none

/-- Accumulator-style splitting of a command line into whitespace-separated
words, as the POSIX shell field-splits an unquoted simple command; `cur`
holds the characters of the word being read, in reverse. -/
def wordsAux : List Char → List Char → List (List Char)
  | [], cur => if cur = [] then [] else [cur.reverse]
  | c :: cs, cur =>
    if c = ' ' then
      (if cur = [] then wordsAux cs [] else cur.reverse :: wordsAux cs [])
    else
      wordsAux cs (c :: cur)

/-- The argument words the shell hands to the spawned process for a
command string containing no quoting. -/
def shellWords (s : String) : List String :=
  (wordsAux s.toList []).map String.mk

/-! Registry lemmas. -/

theorem dictUpdate_cons (m : Modules) (kv : String × PyObj) (kvs : List (String × PyObj)) :
    dictUpdate m (kv :: kvs) = dictUpdate (update1 m kv) kvs := rfl

theorem dictUpdate_not_mem (kvs : List (String × PyObj)) (m : Modules) (k : String)
    (h : ∀ kv ∈ kvs, k ≠ kv.1) : dictUpdate m kvs k = m k := by
  induction kvs generalizing m with
  | nil => rfl
  | cons kv rest ih =>
    have h1 : k ≠ kv.1 := h kv (List.mem_cons_self kv rest)
    have h2 : ∀ p ∈ rest, k ≠ p.1 := fun p hp => h p (List.mem_cons_of_mem kv hp)
    calc dictUpdate m (kv :: rest) k
        = dictUpdate (update1 m kv) rest k := rfl
      _ = update1 m kv k := ih (update1 m kv) h2
      _ = m k := by simp [update1, h1]

theorem dictUpdate_mem_mock (names : List String) (m : Modules) (k : String)
    (h : k ∈ names) :
    dictUpdate m (names.map fun n => (n, PyObj.mock)) k = some PyObj.mock := by
  induction names generalizing m with
  | nil => cases h
  | cons x rest ih =>
    by_cases hk : k ∈ rest
    · exact ih (update1 m (x, PyObj.mock)) hk
    · have hx : k = x := by
        rcases List.mem_cons.mp h with h1 | h1
        · exact h1
        · exact absurd h1 hk
      have hrest : ∀ p ∈ rest.map (fun n => (n, PyObj.mock)), k ≠ p.1 := by
        intro p hp
        rcases List.mem_map.mp hp with ⟨n, hn, rfl⟩
        intro he
        exact hk (he ▸ hn)
      calc dictUpdate m ((x :: rest).map fun n => (n, PyObj.mock)) k
          = dictUpdate (update1 m (x, PyObj.mock))
              (rest.map fun n => (n, PyObj.mock)) k := rfl
        _ = update1 m (x, PyObj.mock) k := dictUpdate_not_mem _ _ _ hrest
        _ = some PyObj.mock := by simp [update1, hx]

theorem dictUpdate_ne_none (kvs : List (String × PyObj)) (m : Modules) (k : String)
    (h : m k ≠ none) : dictUpdate m kvs k ≠ none := by
  induction kvs generalizing m with
  | nil => exact h
  | cons kv rest ih =>
    refine ih (update1 m kv) ?_
    unfold update1
    by_cases hk : k = kv.1
    · simp [hk]
    · simpa [hk] using h

theorem installStubs_mem (m : Modules) (n : String) (h : n ∈ MOCK_MODULES) :
    installStubs m n = some PyObj.mock :=
  dictUpdate_mem_mock MOCK_MODULES m n h

theorem installStubs_not_mem (m : Modules) (n : String) (h : n ∉ MOCK_MODULES) :
    installStubs m n = m n := by
  refine dictUpdate_not_mem _ _ _ ?_
  intro p hp
  rcases List.mem_map.mp hp with ⟨x, hx, rfl⟩
  intro he
  exact h (he ▸ hx)

/-! Loop and script lemmas. -/

theorem convertLoop_all_ok (exit : String → Nat) (files : List String)
    (h : ∀ fn ∈ files, exit (nbconvertCmd fn) = 0) :
    convertLoop exit files = (files.flatMap perFileEvents, none) := by
  induction files with
  | nil => rfl
  | cons fn rest ih =>
    have h0 : exit (nbconvertCmd fn) = 0 := h fn (List.mem_cons_self _ _)
    have hr := ih (fun f hf => h f (List.mem_cons_of_mem _ hf))
    simp [convertLoop, h0, hr, List.flatMap_cons]

theorem convertLoop_fail (exit : String → Nat) (pre : List String) (f : String)
    (post : List String) (h1 : ∀ fn ∈ pre, exit (nbconvertCmd fn) = 0)
    (h2 : exit (nbconvertCmd f) ≠ 0) :
    convertLoop exit (pre ++ f :: post) =
      (pre.flatMap perFileEvents ++ perFileEvents f,
       some (nbconvertCmd f, exit (nbconvertCmd f))) := by
  induction pre with
  | nil => simp [convertLoop, h2]
  | cons fn rest ih =>
    have h0 : exit (nbconvertCmd fn) = 0 := h1 fn (List.mem_cons_self _ _)
    have hr := ih (fun g hg => h1 g (List.mem_cons_of_mem _ hg))
    simp [convertLoop, h0, hr, List.flatMap_cons, List.append_assoc]

theorem callEvents_perFile (fn : String) :
    callEvents (perFileEvents fn) = [nbconvertCmd fn] := rfl

theorem callEvents_append (t1 t2 : List Event) :
    callEvents (t1 ++ t2) = callEvents t1 ++ callEvents t2 :=
  List.filterMap_append t1 t2 _

theorem callEvents_flatMap (files : List String) :
    callEvents (files.flatMap perFileEvents) = files.map nbconvertCmd := by
  induction files with
  | nil => rfl
  | cons fn rest ih =>
    rw [List.flatMap_cons, callEvents_append, callEvents_perFile, ih]
    rfl

theorem runConf_modules (m0 : Modules) (env : ImportEnv) (glob : String → List String)
    (exit : String → Nat) : (runConf m0 env glob exit).modules = installStubs m0 := by
  unfold runConf
  rcases h : env.ok (installStubs m0)
  · simp [h]
  · simp only [h, if_true]
    rcases hres : convertLoop exit (glob globPattern) with ⟨tr, _ | pr⟩ <;> simp

/-! Claim theorems. -/

/-- C1: before the target package is imported, each of the 11 names of
the fixed stub list is bound in the module registry to a placeholder
object on which any attribute access succeeds and yields another
permissive placeholder rather than raising. -/
theorem spec_C1 (m : Modules) (n : String) (h : n ∈ MOCK_MODULES) :
    MOCK_MODULES.length = 11 ∧
    installStubs m n = some PyObj.mock ∧
    (∀ env glob exit, (runConf m env glob exit).modules n = some PyObj.mock) ∧
    (∀ a : String, pyGetattr PyObj.mock a = some PyObj.magicMock) ∧
    (∀ a : String, (pyGetattr PyObj.magicMock a).isSome = true) := by
  refine ⟨rfl, installStubs_mem m n h, ?_, fun a => rfl, fun a => rfl⟩
  intro env glob exit
  rw [runConf_modules, installStubs_mem m n h]

theorem spec_C1_witness :
    ("pymc3" ∈ MOCK_MODULES) ∧
    (MOCK_MODULES.length = 11 ∧
     installStubs (fun _ => none) "pymc3" = some PyObj.mock ∧
     (∀ env glob exit,
        (runConf (fun _ => none) env glob exit).modules "pymc3" = some PyObj.mock) ∧
     (∀ a : String, pyGetattr PyObj.mock a = some PyObj.magicMock) ∧
     (∀ a : String, (pyGetattr PyObj.magicMock a).isSome = true)) :=
  ⟨by decide, spec_C1 (fun _ => none) "pymc3" (by decide)⟩

/-- C2: for a glob result of N files all of whose conversions succeed,
the loop emits exactly N converter invocations, one per file, in
directory-scan (list) order, each preceded by the progress print with
that file's derived name. -/
theorem spec_C2 (exit : String → Nat) (files : List String)
    (h : ∀ fn ∈ files, exit (nbconvertCmd fn) = 0) :
    convertLoop exit files = (files.flatMap perFileEvents, none) ∧
    callEvents (files.flatMap perFileEvents) = files.map nbconvertCmd ∧
    (callEvents (files.flatMap perFileEvents)).length = files.length ∧
    (∀ fn, perFileEvents fn =
      [Event.print (buildingMsg (deriveName fn)), Event.call (nbconvertCmd fn)]) := by
  refine ⟨convertLoop_all_ok exit files h, callEvents_flatMap files, ?_, fun fn => rfl⟩
  rw [callEvents_flatMap]
  exact List.length_map files nbconvertCmd

theorem spec_C2_witness :
    (∀ fn ∈ ["_static/notebooks/a.ipynb", "_static/notebooks/b.ipynb"],
       (fun _ => 0 : String → Nat) (nbconvertCmd fn) = 0) ∧
    (convertLoop (fun _ => 0) ["_static/notebooks/a.ipynb", "_static/notebooks/b.ipynb"] =
       (["_static/notebooks/a.ipynb", "_static/notebooks/b.ipynb"].flatMap perFileEvents,
        none) ∧
     callEvents (["_static/notebooks/a.ipynb",
        "_static/notebooks/b.ipynb"].flatMap perFileEvents) =
       ["_static/notebooks/a.ipynb", "_static/notebooks/b.ipynb"].map nbconvertCmd ∧
     (callEvents (["_static/notebooks/a.ipynb",
        "_static/notebooks/b.ipynb"].flatMap perFileEvents)).length =
       (["_static/notebooks/a.ipynb", "_static/notebooks/b.ipynb"] : List String).length ∧
     (∀ fn, perFileEvents fn =
       [Event.print (buildingMsg (deriveName fn)), Event.call (nbconvertCmd fn)])) :=
  ⟨by decide,
   spec_C2 (fun _ => 0) ["_static/notebooks/a.ipynb", "_static/notebooks/b.ipynb"]
     (by decide)⟩

/-- C3: if the converter exits non-zero on some file (all earlier files
having succeeded), the loop's trace contains exactly the events of the
earlier files and of the failing file, nothing for the remaining files
and no other event, and the configuration load ends with the propagated
process error. -/
theorem spec_C3 (exit : String → Nat) (pre : List String) (f : String)
    (post : List String) (h1 : ∀ fn ∈ pre, exit (nbconvertCmd fn) = 0)
    (h2 : exit (nbconvertCmd f) ≠ 0) :
    convertLoop exit (pre ++ f :: post) =
      (pre.flatMap perFileEvents ++ perFileEvents f,
       some (nbconvertCmd f, exit (nbconvertCmd f))) ∧
    callEvents (pre.flatMap perFileEvents ++ perFileEvents f) =
      pre.map nbconvertCmd ++ [nbconvertCmd f] ∧
    (∀ m0 env glob, env.ok (installStubs m0) = true →
      glob globPattern = pre ++ f :: post →
      (runConf m0 env glob exit).outcome =
        Outcome.calledProcessError (nbconvertCmd f) (exit (nbconvertCmd f))) := by
  refine ⟨convertLoop_fail exit pre f post h1 h2, ?_, ?_⟩
  · rw [callEvents_append, callEvents_flatMap, callEvents_perFile]
  · intro m0 env glob himp hglob
    unfold runConf
    rw [hglob, if_pos himp, convertLoop_fail exit pre f post h1 h2]

theorem spec_C3_witness :
    (∀ fn ∈ ["_static/notebooks/a.ipynb"],
       (fun c => if c = nbconvertCmd "_static/notebooks/b.ipynb" then 1 else 0 : String → Nat) (nbconvertCmd fn) = 0) ∧
    ((fun c => if c = nbconvertCmd "_static/notebooks/b.ipynb" then 1 else 0 : String → Nat) (nbconvertCmd "_static/notebooks/b.ipynb") ≠ 0) ∧
    (convertLoop (fun c => if c = nbconvertCmd "_static/notebooks/b.ipynb" then 1 else 0)
        (["_static/notebooks/a.ipynb"] ++ "_static/notebooks/b.ipynb" :: ["_static/notebooks/c.ipynb"]) =
      (["_static/notebooks/a.ipynb"].flatMap perFileEvents ++
         perFileEvents "_static/notebooks/b.ipynb",
       some (nbconvertCmd "_static/notebooks/b.ipynb", 1)) ∧
     callEvents (["_static/notebooks/a.ipynb"].flatMap perFileEvents ++
         perFileEvents "_static/notebooks/b.ipynb") =
       ["_static/notebooks/a.ipynb"].map nbconvertCmd ++
         [nbconvertCmd "_static/notebooks/b.ipynb"] ∧
     (∀ m0 env glob, env.ok (installStubs m0) = true →
       glob globPattern =
         ["_static/notebooks/a.ipynb"] ++ "_static/notebooks/b.ipynb" :: ["_static/notebooks/c.ipynb"] →
       (runConf m0 env glob
           (fun c => if c = nbconvertCmd "_static/notebooks/b.ipynb" then 1 else 0)).outcome =
         Outcome.calledProcessError (nbconvertCmd "_static/notebooks/b.ipynb") 1)) := by
  have h1 : ∀ fn ∈ ["_static/notebooks/a.ipynb"],
      (fun c => if c = nbconvertCmd "_static/notebooks/b.ipynb" then 1 else 0 : String → Nat)
        (nbconvertCmd fn) = 0 := by decide
  exact ⟨h1, by decide,
    spec_C3 (fun c => if c = nbconvertCmd "_static/notebooks/b.ipynb" then 1 else 0)
      ["_static/notebooks/a.ipynb"] "_static/notebooks/b.ipynb"
      ["_static/notebooks/c.ipynb"] h1 (by decide)⟩

/-- C6: when the glob yields no matching files, the loop body never
runs: zero converter invocations, an empty trace, and the configuration
load completes without error. -/
theorem spec_C6 (m0 : Modules) (env : ImportEnv) (glob : String → List String)
    (exit : String → Nat) (himp : env.ok (installStubs m0) = true)
    (hglob : glob globPattern = []) :
    convertLoop exit (glob globPattern) = ([], none) ∧
    (runConf m0 env glob exit).events = [] ∧
    callEvents (runConf m0 env glob exit).events = [] ∧
    (runConf m0 env glob exit).outcome = Outcome.ok := by
  have hc : convertLoop exit (glob globPattern) = ([], none) := by
    rw [hglob]
    rfl
  refine ⟨hc, ?_, ?_, ?_⟩ <;>
    · unfold runConf
      rw [if_pos himp, hc]
      try rfl

theorem spec_C6_witness :
    ((⟨fun _ => true, "0.1.0"⟩ : ImportEnv).ok
        (installStubs fun _ => none) = true) ∧
    ((fun _ => ([] : List String)) globPattern = []) ∧
    (convertLoop (fun _ => 0) ((fun _ => ([] : List String)) globPattern) = ([], none) ∧
     (runConf (fun _ => none) ⟨fun _ => true, "0.1.0"⟩ (fun _ => []) (fun _ => 0)).events
        = [] ∧
     callEvents (runConf (fun _ => none) ⟨fun _ => true, "0.1.0"⟩ (fun _ => [])
        (fun _ => 0)).events = [] ∧
     (runConf (fun _ => none) ⟨fun _ => true, "0.1.0"⟩ (fun _ => [])
        (fun _ => 0)).outcome = Outcome.ok) :=
  ⟨rfl, rfl,
   spec_C6 (fun _ => none) ⟨fun _ => true, "0.1.0"⟩ (fun _ => []) (fun _ => 0) rfl rfl⟩

/-- C7: the stub installation touches only the 11 names of the fixed
stub list: every registry entry under any other name is unchanged, no
entry is ever removed, and the installed stubs persist in the registry
the script finishes with. -/
theorem spec_C7 (m : Modules) (n : String) (h : n ∉ MOCK_MODULES) :
    installStubs m n = m n ∧
    (∀ k, m k ≠ none → installStubs m k ≠ none) ∧
    (∀ env glob exit, (runConf m env glob exit).modules = installStubs m ∧
      ∀ k ∈ MOCK_MODULES, (runConf m env glob exit).modules k = some PyObj.mock) := by
  refine ⟨installStubs_not_mem m n h, ?_, ?_⟩
  · intro k hk
    exact dictUpdate_ne_none _ m k hk
  · intro env glob exit
    refine ⟨runConf_modules m env glob exit, fun k hk => ?_⟩
    rw [runConf_modules]
    exact installStubs_mem m k hk

theorem spec_C7_witness :
    ("scipy" ∉ MOCK_MODULES) ∧
    (installStubs (fun k => if k = "scipy" then some (PyObj.other "scipy") else none)
        "scipy" =
      (fun k => if k = "scipy" then some (PyObj.other "scipy") else none) "scipy" ∧
     (∀ k, (fun k => if k = "scipy" then some (PyObj.other "scipy") else none) k ≠ none →
       installStubs (fun k => if k = "scipy" then some (PyObj.other "scipy") else none)
         k ≠ none) ∧
     (∀ env glob exit,
       (runConf (fun k => if k = "scipy" then some (PyObj.other "scipy") else none)
          env glob exit).modules =
         installStubs (fun k => if k = "scipy" then some (PyObj.other "scipy") else none) ∧
       ∀ k ∈ MOCK_MODULES,
         (runConf (fun k => if k = "scipy" then some (PyObj.other "scipy") else none)
            env glob exit).modules k = some PyObj.mock)) :=
  ⟨by decide,
   spec_C7 (fun k => if k = "scipy" then some (PyObj.other "scipy") else none)
     "scipy" (by decide)⟩

/-- C8: if `import exoplanet` fails despite the installed stubs, the
configuration load aborts with the import error and the conversion loop
is never reached: zero converter invocations. -/
theorem spec_C8 (m0 : Modules) (env : ImportEnv) (glob : String → List String)
    (exit : String → Nat) (h : env.ok (installStubs m0) = false) :
    (runConf m0 env glob exit).outcome = Outcome.importError ∧
    (runConf m0 env glob exit).events = [] ∧
    callEvents (runConf m0 env glob exit).events = [] := by
  refine ⟨?_, ?_, ?_⟩ <;>
    · unfold runConf
      rw [h]
      rfl

theorem spec_C8_witness :
    ((⟨fun _ => false, "0.1.0"⟩ : ImportEnv).ok
        (installStubs fun _ => none) = false) ∧
    ((runConf (fun _ => none) ⟨fun _ => false, "0.1.0"⟩
        (fun _ => ["_static/notebooks/a.ipynb"]) (fun _ => 0)).outcome =
          Outcome.importError ∧
     (runConf (fun _ => none) ⟨fun _ => false, "0.1.0"⟩
        (fun _ => ["_static/notebooks/a.ipynb"]) (fun _ => 0)).events = [] ∧
     callEvents (runConf (fun _ => none) ⟨fun _ => false, "0.1.0"⟩
        (fun _ => ["_static/notebooks/a.ipynb"]) (fun _ => 0)).events = []) :=
  ⟨rfl,
   spec_C8 (fun _ => none) ⟨fun _ => false, "0.1.0"⟩
     (fun _ => ["_static/notebooks/a.ipynb"]) (fun _ => 0) rfl⟩

/-- C10: when the script runs to completion, both the `version` and the
`release` configuration variables are set to the imported package's
`__version__` attribute, hence equal to each other. -/
theorem spec_C10 (m0 : Modules) (env : ImportEnv) (glob : String → List String)
    (exit : String → Nat) (himp : env.ok (installStubs m0) = true)
    (hsucc : ∀ f ∈ glob globPattern, exit (nbconvertCmd f) = 0) :
    (runConf m0 env glob exit).version = some env.version ∧
    (runConf m0 env glob exit).release = some env.version ∧
    (runConf m0 env glob exit).version = (runConf m0 env glob exit).release := by
  have hc := convertLoop_all_ok exit (glob globPattern) hsucc
  refine ⟨?_, ?_, ?_⟩ <;>
    · unfold runConf
      rw [if_pos himp, hc]
      try rfl

theorem spec_C10_witness :
    ((⟨fun _ => true, "0.2.0"⟩ : ImportEnv).ok
        (installStubs fun _ => none) = true) ∧
    (∀ f ∈ (fun _ => ["_static/notebooks/a.ipynb"] : String → List String) globPattern,
       (fun _ => 0 : String → Nat) (nbconvertCmd f) = 0) ∧
    ((runConf (fun _ => none) ⟨fun _ => true, "0.2.0"⟩
        (fun _ => ["_static/notebooks/a.ipynb"]) (fun _ => 0)).version = some "0.2.0" ∧
     (runConf (fun _ => none) ⟨fun _ => true, "0.2.0"⟩
        (fun _ => ["_static/notebooks/a.ipynb"]) (fun _ => 0)).release = some "0.2.0" ∧
     (runConf (fun _ => none) ⟨fun _ => true, "0.2.0"⟩
        (fun _ => ["_static/notebooks/a.ipynb"]) (fun _ => 0)).version =
       (runConf (fun _ => none) ⟨fun _ => true, "0.2.0"⟩
          (fun _ => ["_static/notebooks/a.ipynb"]) (fun _ => 0)).release) :=
  ⟨rfl, by decide,
   spec_C10 (fun _ => none) ⟨fun _ => true, "0.2.0"⟩
     (fun _ => ["_static/notebooks/a.ipynb"]) (fun _ => 0) rfl (by decide)⟩

/-! Path-derivation lemmas. -/

theorem mk_toList (s : String) : String.mk s.toList = s := rfl

theorem toList_append (s t : String) : (s ++ t).toList = s.toList ++ t.toList := rfl

theorem toList_eq_nil {s : String} (h : s.toList = []) : s = "" := by
  rw [← mk_toList s, h]

theorem rfind1_cons (x : Char) (xs : List Char) (c : Char) :
    rfind1 (x :: xs) c =
      if rfind1 xs c = 0 then (if x = c then 1 else 0) else rfind1 xs c + 1 := rfl

theorem rfind1_eq_zero (l : List Char) (c : Char) : rfind1 l c = 0 ↔ c ∉ l := by
  induction l with
  | nil => simp [rfind1]
  | cons x xs ih =>
    rw [rfind1_cons]
    by_cases hr : rfind1 xs c = 0
    · have hxs : c ∉ xs := ih.mp hr
      by_cases hx : x = c
      · subst hx
        simp [hr]
      · simp only [hr, if_true, if_neg hx, List.mem_cons]
        simp [hxs]
        exact fun he => hx he.symm
    · have hxs : c ∈ xs := not_not.mp fun hn => hr (ih.mpr hn)
      simp [hr, List.mem_cons, hxs]

theorem rfind1_append (l1 l2 : List Char) (c : Char) :
    rfind1 (l1 ++ l2) c =
      if rfind1 l2 c = 0 then rfind1 l1 c else l1.length + rfind1 l2 c := by
  induction l1 with
  | nil => by_cases h : rfind1 l2 c = 0 <;> simp [h, rfind1]
  | cons x xs ih =>
    rw [List.cons_append, rfind1_cons, ih, rfind1_cons]
    by_cases h : rfind1 l2 c = 0
    · simp [h]
    · have h1 : ¬ (xs.length + rfind1 l2 c = 0) := by omega
      simp only [if_neg h, if_neg h1, List.length_cons]
      omega

theorem splitPath_snd (l : List Char) : (splitPath l).2 = l.drop (rfind1 l '/') := rfl

theorem rfind1_tail_slash (stem : List Char) (h1 : '/' ∉ stem) :
    rfind1 (stem ++ ".ipynb".toList) '/' = 0 := by
  rw [rfind1_append, (by decide : rfind1 ".ipynb".toList '/' = 0), if_pos rfl]
  exact (rfind1_eq_zero stem '/').mpr h1

theorem rfind1_tail_dot (stem : List Char) :
    rfind1 (stem ++ ".ipynb".toList) '.' = stem.length + 1 := by
  rw [rfind1_append, (by decide : rfind1 ".ipynb".toList '.' = 1)]
  simp

theorem splitext_stem (stem : List Char) (h1 : '/' ∉ stem)
    (h2 : stem.all (fun c => c == '.') = false) :
    (splitext (stem ++ ".ipynb".toList)).1 = stem := by
  have ht : (stem ++ ".ipynb".toList).take stem.length = stem :=
    List.take_left stem _
  simp only [splitext]
  rw [rfind1_tail_slash stem h1, rfind1_tail_dot stem]
  simp only [List.drop_zero, Nat.add_sub_cancel, Nat.sub_zero]
  rw [if_pos (Nat.succ_pos stem.length), ht, h2]
  rfl

theorem nameOf_glob (stem : List Char) (h1 : '/' ∉ stem)
    (h2 : stem.all (fun c => c == '.') = false) :
    nameOf ("_static/notebooks/".toList ++ (stem ++ ".ipynb".toList)) = stem := by
  have hdir : rfind1 ("_static/notebooks/".toList ++ (stem ++ ".ipynb".toList)) '/'
      = 18 := by
    rw [rfind1_append, rfind1_tail_slash stem h1, if_pos rfl]
    decide
  unfold nameOf
  rw [splitPath_snd, hdir,
    List.drop_left' (by decide : ("_static/notebooks/".toList : List Char).length = 18)]
  exact splitext_stem stem h1 h2

theorem deriveName_glob (stem : String) (h1 : '/' ∉ stem.toList)
    (h2 : stem.toList.all (fun c => c == '.') = false) :
    deriveName ("_static/notebooks/" ++ stem ++ ".ipynb") = stem := by
  have hdata : ("_static/notebooks/" ++ stem ++ ".ipynb").toList
      = "_static/notebooks/".toList ++ (stem.toList ++ ".ipynb".toList) :=
    List.append_assoc _ _ _
  unfold deriveName
  rw [hdata, nameOf_glob stem.toList h1 h2, mk_toList]

/-- C4: for a matched input path (a stem without directory separators
and not consisting only of dots, as `*` never matches a leading dot),
the derived display name is the filename with directory and extension
stripped and nothing else; the progress message and the spec-modelled
converter output path follow it. -/
theorem spec_C4 (stem : String) (h1 : '/' ∉ stem.toList)
    (h2 : stem.toList.all (fun c => c == '.') = false) :
    deriveName ("_static/notebooks/" ++ stem ++ ".ipynb") = stem ∧
    buildingMsg (deriveName ("_static/notebooks/" ++ stem ++ ".ipynb")) =
      "Building " ++ stem ++ "..." ∧
    outputPathFor ("_static/notebooks/" ++ stem ++ ".ipynb") =
      "tutorials/" ++ stem ++ ".rst" := by
  have hd := deriveName_glob stem h1 h2
  refine ⟨hd, ?_, ?_⟩
  · rw [hd]
    rfl
  · unfold outputPathFor
    rw [hd]

theorem spec_C4_witness :
    ('/' ∉ "quickstart".toList) ∧
    ("quickstart".toList.all (fun c => c == '.') = false) ∧
    (deriveName ("_static/notebooks/" ++ "quickstart" ++ ".ipynb") = "quickstart" ∧
     buildingMsg (deriveName ("_static/notebooks/" ++ "quickstart" ++ ".ipynb")) =
       "Building " ++ "quickstart" ++ "..." ∧
     outputPathFor ("_static/notebooks/" ++ "quickstart" ++ ".ipynb") =
       "tutorials/" ++ "quickstart" ++ ".rst") ∧
    deriveName "_static/notebooks/quickstart.ipynb" = "quickstart" ∧
    buildingMsg (deriveName "_static/notebooks/quickstart.ipynb") =
      "Building quickstart..." ∧
    outputPathFor "_static/notebooks/quickstart.ipynb" = "tutorials/quickstart.rst" :=
  ⟨by decide, by decide, spec_C4 "quickstart" (by decide) (by decide),
   by decide, by decide, by decide⟩

/-! Shell word-splitting lemmas. -/

theorem wordsAux_nil (cur : List Char) :
    wordsAux [] cur = if cur = [] then [] else [cur.reverse] := rfl

theorem wordsAux_cons (c : Char) (cs cur : List Char) :
    wordsAux (c :: cs) cur =
      if c = ' ' then
        (if cur = [] then wordsAux cs [] else cur.reverse :: wordsAux cs [])
      else wordsAux cs (c :: cur) := rfl

theorem wordsAux_no_space (l : List Char) : ∀ cur : List Char, ' ' ∉ cur →
    ∀ w ∈ wordsAux l cur, ' ' ∉ w := by
  induction l with
  | nil =>
    intro cur hc w hw
    by_cases h : cur = []
    · simp [wordsAux_nil, h] at hw
    · simp only [wordsAux_nil, if_neg h, List.mem_singleton] at hw
      subst hw
      simpa using hc
  | cons c cs ih =>
    intro cur hc w hw
    by_cases hsp : c = ' '
    · subst hsp
      rw [wordsAux_cons, if_pos rfl] at hw
      by_cases h : cur = []
      · rw [if_pos h] at hw
        exact ih [] (by simp) w hw
      · rw [if_neg h] at hw
        rcases List.mem_cons.mp hw with hw | hw
        · subst hw
          simpa using hc
        · exact ih [] (by simp) w hw
    · rw [wordsAux_cons, if_neg hsp] at hw
      refine ih (c :: cur) ?_ w hw
      simp only [List.mem_cons]
      rintro (he | he)
      · exact hsp he.symm
      · exact hc he

theorem wordsAux_append_word (w : List Char) : ∀ l cur : List Char,
    (∀ c ∈ w, c ≠ ' ') → wordsAux (w ++ l) cur = wordsAux l (w.reverse ++ cur) := by
  induction w with
  | nil =>
    intro l cur _
    simp
  | cons c cs ih =>
    intro l cur hw
    have hc : c ≠ ' ' := hw c (List.mem_cons_self c cs)
    rw [List.cons_append, wordsAux_cons, if_neg hc,
        ih l (c :: cur) (fun d hd => hw d (List.mem_cons_of_mem c hd))]
    congr 1
    simp

theorem wordsAux_flush (rest cur : List Char) (h : cur ≠ []) :
    wordsAux (' ' :: rest) cur = cur.reverse :: wordsAux rest [] := by
  rw [wordsAux_cons, if_pos rfl, if_neg h]

theorem wordsAux_word_space (w rest : List Char) (hw : ∀ c ∈ w, c ≠ ' ')
    (hne : w ≠ []) :
    wordsAux (w ++ ' ' :: rest) [] = w :: wordsAux rest [] := by
  rw [wordsAux_append_word w (' ' :: rest) [] hw, List.append_nil,
      wordsAux_flush rest w.reverse (by simpa using hne), List.reverse_reverse]

theorem wordsAux_cmd (X : List Char) :
    wordsAux
        ("jupyter nbconvert --template tutorials/tutorial_rst --to rst ".toList ++ X)
        [] =
      "jupyter".toList :: "nbconvert".toList :: "--template".toList ::
        "tutorials/tutorial_rst".toList :: "--to".toList :: "rst".toList ::
        wordsAux X [] := by
  rw [(by decide :
        ("jupyter nbconvert --template tutorials/tutorial_rst --to rst ").toList =
          "jupyter".toList ++
            ' ' :: "nbconvert --template tutorials/tutorial_rst --to rst ".toList),
      List.append_assoc, List.cons_append,
      wordsAux_word_space _ _ (by decide) (by decide)]
  rw [(by decide :
        ("nbconvert --template tutorials/tutorial_rst --to rst ").toList =
          "nbconvert".toList ++ ' ' :: "--template tutorials/tutorial_rst --to rst ".toList),
      List.append_assoc, List.cons_append,
      wordsAux_word_space _ _ (by decide) (by decide)]
  rw [(by decide :
        ("--template tutorials/tutorial_rst --to rst ").toList =
          "--template".toList ++ ' ' :: "tutorials/tutorial_rst --to rst ".toList),
      List.append_assoc, List.cons_append,
      wordsAux_word_space _ _ (by decide) (by decide)]
  rw [(by decide :
        ("tutorials/tutorial_rst --to rst ").toList =
          "tutorials/tutorial_rst".toList ++ ' ' :: "--to rst ".toList),
      List.append_assoc, List.cons_append,
      wordsAux_word_space _ _ (by decide) (by decide)]
  rw [(by decide :
        ("--to rst ").toList = "--to".toList ++ ' ' :: "rst ".toList),
      List.append_assoc, List.cons_append,
      wordsAux_word_space _ _ (by decide) (by decide)]
  rw [(by decide : ("rst ").toList = "rst".toList ++ ' ' :: ([] : List Char)),
      List.append_assoc, List.cons_append, List.nil_append,
      wordsAux_word_space _ _ (by decide) (by decide)]

theorem shellWords_nbconvertCmd (fn : String) (hs : ∀ c ∈ fn.toList, c ≠ ' ')
    (hne : fn ≠ "") :
    shellWords (nbconvertCmd fn) =
      ["jupyter", "nbconvert", "--template", "tutorials/tutorial_rst", "--to", "rst",
       fn, "--output-dir", "tutorials"] := by
  have hne' : fn.toList ≠ [] := fun h => hne (toList_eq_nil h)
  have hdata : (nbconvertCmd fn).toList
      = "jupyter nbconvert --template tutorials/tutorial_rst --to rst ".toList
        ++ (fn.toList ++ " --output-dir tutorials".toList) :=
    List.append_assoc _ _ _
  unfold shellWords
  rw [hdata, wordsAux_cmd,
      (by decide :
        (" --output-dir tutorials").toList = ' ' :: "--output-dir tutorials".toList),
      wordsAux_word_space fn.toList _ hs hne',
      (by decide : wordsAux ("--output-dir tutorials").toList [] =
        ["--output-dir".toList, "tutorials".toList])]
  rfl

/-- C5: the conversion step iterates over exactly the glob result for
the pattern `_static/notebooks/*.ipynb`, with one converter invocation
per file, and the command handed to the shell for a (well-formed,
space-free) file path field-splits into `jupyter nbconvert` with the
template `tutorials/tutorial_rst`, the target format `rst`, the file's
path, and the output directory `tutorials`. -/
theorem spec_C5 (m0 : Modules) (env : ImportEnv) (glob : String → List String)
    (exit : String → Nat) (fn : String)
    (himp : env.ok (installStubs m0) = true)
    (hsucc : ∀ f ∈ glob globPattern, exit (nbconvertCmd f) = 0)
    (hs : ∀ c ∈ fn.toList, c ≠ ' ') (hne : fn ≠ "") :
    globPattern = "_static/notebooks/*.ipynb" ∧
    (runConf m0 env glob exit).events = (glob globPattern).flatMap perFileEvents ∧
    callEvents (runConf m0 env glob exit).events = (glob globPattern).map nbconvertCmd ∧
    shellWords (nbconvertCmd fn) =
      ["jupyter", "nbconvert", "--template", "tutorials/tutorial_rst", "--to", "rst",
       fn, "--output-dir", "tutorials"] := by
  have hc := convertLoop_all_ok exit (glob globPattern) hsucc
  refine ⟨rfl, ?_, ?_, shellWords_nbconvertCmd fn hs hne⟩
  · unfold runConf
    rw [if_pos himp, hc]
  · unfold runConf
    rw [if_pos himp, hc]
    exact callEvents_flatMap (glob globPattern)

theorem spec_C5_witness :
    ((⟨fun _ => true, "0.1.0"⟩ : ImportEnv).ok
        (installStubs fun _ => none) = true) ∧
    (∀ f ∈ (fun _ => ["_static/notebooks/quickstart.ipynb"] : String → List String)
        globPattern, (fun _ => 0 : String → Nat) (nbconvertCmd f) = 0) ∧
    (∀ c ∈ "_static/notebooks/quickstart.ipynb".toList, c ≠ ' ') ∧
    ("_static/notebooks/quickstart.ipynb" ≠ "") ∧
    (globPattern = "_static/notebooks/*.ipynb" ∧
     (runConf (fun _ => none) ⟨fun _ => true, "0.1.0"⟩
        (fun _ => ["_static/notebooks/quickstart.ipynb"]) (fun _ => 0)).events =
       ((fun _ => ["_static/notebooks/quickstart.ipynb"] : String → List String)
          globPattern).flatMap perFileEvents ∧
     callEvents (runConf (fun _ => none) ⟨fun _ => true, "0.1.0"⟩
        (fun _ => ["_static/notebooks/quickstart.ipynb"]) (fun _ => 0)).events =
       ((fun _ => ["_static/notebooks/quickstart.ipynb"] : String → List String)
          globPattern).map nbconvertCmd ∧
     shellWords (nbconvertCmd "_static/notebooks/quickstart.ipynb") =
       ["jupyter", "nbconvert", "--template", "tutorials/tutorial_rst", "--to", "rst",
        "_static/notebooks/quickstart.ipynb", "--output-dir", "tutorials"]) :=
  ⟨rfl, by decide, by decide, by decide,
   spec_C5 (fun _ => none) ⟨fun _ => true, "0.1.0"⟩
     (fun _ => ["_static/notebooks/quickstart.ipynb"]) (fun _ => 0)
     "_static/notebooks/quickstart.ipynb" rfl (by decide) (by decide) (by decide)⟩

/-- C9: the command handed to the shell is the exact unquoted
concatenation of the fixed program text around the file path; a path
containing a space therefore never reaches the converter as a single
argument word. -/
theorem spec_C9 (fn : String) (h : ' ' ∈ fn.toList) :
    nbconvertCmd fn =
      "jupyter nbconvert --template tutorials/tutorial_rst --to rst " ++ fn
        ++ " --output-dir tutorials" ∧
    fn ∉ shellWords (nbconvertCmd fn) := by
  refine ⟨rfl, ?_⟩
  intro hmem
  unfold shellWords at hmem
  rcases List.mem_map.mp hmem with ⟨w, hw, hfq⟩
  have hnosp : ' ' ∉ w :=
    wordsAux_no_space (nbconvertCmd fn).toList [] (by simp) w hw
  have hwt : w = fn.toList := by
    rw [← hfq]
    rfl
  rw [hwt] at hnosp
  exact hnosp h

theorem spec_C9_witness :
    (' ' ∈ "a b.ipynb".toList) ∧
    (nbconvertCmd "a b.ipynb" =
      "jupyter nbconvert --template tutorials/tutorial_rst --to rst " ++ "a b.ipynb"
        ++ " --output-dir tutorials" ∧
     "a b.ipynb" ∉ shellWords (nbconvertCmd "a b.ipynb")) :=
  ⟨by decide, spec_C9 "a b.ipynb" (by decide)⟩

end Conf
